import Mathlib

/-!
Shallow embedding of the `notification-bridge` repository core:
the `NotificationPayload` data model, the Linux D-Bus listener
(`listeners/linux.py`), the Windows polling listener
(`listeners/windows.py`), and the `NotificationForwarder` (`core.py`).

Python machine-level effects are made explicit:
exceptions become `Except`, the wall clock becomes an explicit
`now`/`DateTime` argument, the HTTP transport becomes an explicit
outcome value, and each listener instance's attributes become a
state record threaded through `start`/`stop`.
-/

/-- Atom of data carried in a D-Bus hints dictionary value, or stored in a
converted payload's hints mapping.  `nonSerializable pyRepr` models any
Python value that `json.dumps` rejects, carrying its `str()` form. -/
inductive HintAtom where
  | str (s : String)
  | int (n : Int)
  | boolV (b : Bool)
  | nonSerializable (pyRepr : String)
deriving Repr, DecidableEq

/-- A value of the hints dictionary as it arrives from dbus_fast: either a
bare value or one wrapped in a `Variant` (which exposes `.value`). -/
inductive HintBox where
  | plain (a : HintAtom)
  | variant (a : HintAtom)
deriving Repr, DecidableEq

/-- The `v.value if hasattr(v, "value") else v` access in
`LinuxListener._process_notification`: a Variant is unwrapped one level,
anything else is used as is. -/
def HintBox.value : HintBox → HintAtom
  | .plain a => a
  | .variant a => a

/-- Python `str(v)` applied to the original (possibly Variant-wrapped) hint
value, used by the coercion fallback.  Only the `nonSerializable` case is
ever stored (the others pass the `json.dumps` check), so the rendering of
the serializable atoms is a harmless canonical choice. -/
def HintBox.pyStr (v : HintBox) : String :=
  match v.value with
  | .str s => s
  | .int n => toString n
  | .boolV b => if b then "True" else "False"
  | .nonSerializable r => r

/-- The `json.dumps(val)` feasibility check on an unwrapped hint value:
`nonSerializable` raises `TypeError`/`ValueError`, everything else passes. -/
def jsonSerializable : HintAtom → Bool
  | .nonSerializable _ => false
  | _ => true

/-- One element of a D-Bus message body (`msg.body`).  `other` stands for a
value of a type not produced by the Notify signature `susssasa{sv}i`;
feeding one where a specific type is expected makes payload construction
fail (modelled as a raised validation error). -/
inductive DBusValue where
  | str (s : String)
  | int (n : Int)
  | strList (xs : List String)
  | hintsDict (entries : List (String × HintBox))
  | other (pyRepr : String)
deriving Repr, DecidableEq

/-- The `NotificationPayload` pydantic model of `core.py`.  `hints` is the
dictionary as an ordered association list; `received_at` is the ISO
timestamp string captured at normalization time. -/
structure NotificationPayload where
  app_name : String
  summary : String
  body : String
  icon : String
  replaces_id : Int
  actions : List String
  hints : List (String × HintAtom)
  timeout : Int
  received_at : String
deriving Repr, DecidableEq

/-- Conversion of one hints-dictionary value in
`LinuxListener._process_notification`: unwrap a Variant, keep the value if
it is JSON-serializable, otherwise store `str()` of the original value. -/
def convertHint (v : HintBox) : HintAtom :=
  let val := v.value
  if jsonSerializable val then val else .str v.pyStr

/-- The `for k, v in hints.items()` loop building `serializable_hints`. -/
def convertHints (hs : List (String × HintBox)) : List (String × HintAtom) :=
  hs.map (fun e => (e.1, convertHint e.2))

/-- Body of the `try` block of `LinuxListener._process_notification`,
before the catch-all handler: `.ok none` is the early return on a short
argument list, `.ok (some p)` is a constructed payload, `.error` is an
exception raised inside the block (a type mismatch rejected by the
pydantic model construction).  `now` is the
`datetime.now(timezone.utc).isoformat()` string. -/
def processNotificationExc (args : List DBusValue) (now : String) :
    Except String (Option NotificationPayload) :=
  if args.length < 8 then .ok none
  else
    match args.take 8 with
    | [.str app_name, .int replaces_id, .str icon, .str summary, .str body,
       .strList actions, .hintsDict hints, .int timeout] =>
        .ok (some
          { app_name := app_name
            summary := summary
            body := body
            icon := icon
            replaces_id := replaces_id
            actions := if actions.isEmpty then [] else actions
            hints := convertHints hints
            timeout := timeout
            received_at := now })
    | _ => .error "ValidationError"

/-- `LinuxListener._process_notification` as observed from outside: the
catch-all `except Exception` turns any raised error into no payload. -/
def processNotification (args : List DBusValue) (now : String) :
    Option NotificationPayload :=
  match processNotificationExc args now with
  | .ok r => r
  | .error _ => none

/-- Number of callback invocations performed for one processed message:
one when a payload was built and `self._callback` is set, zero otherwise. -/
def linuxCallbackCount (callbackSet : Bool) (args : List DBusValue)
    (now : String) : Nat :=
  if callbackSet && (processNotification args now).isSome then 1 else 0

/-- Instance attributes of a `LinuxListener`: `_running`, whether
`_callback` is set, whether `_bus` is set (not `None`), whether that bus
object is connected, and whether `add_message_handler` was called on it. -/
structure LinuxState where
  running : Bool
  callbackSet : Bool
  busSet : Bool
  busConnected : Bool
  handlerRegistered : Bool
deriving Repr, DecidableEq

/-- State of a freshly constructed `LinuxListener` (`__init__`). -/
def LinuxState.init : LinuxState :=
  { running := false, callbackSet := false, busSet := false
    busConnected := false, handlerRegistered := false }

/-- The `is_running` property. -/
def LinuxListener.is_running (st : LinuxState) : Bool := st.running

/-- Reply type of the AddMatch bus call as seen by `start`. -/
inductive ReplyType where
  | error
  | methodReturn
deriving Repr, DecidableEq

/-- `LinuxListener.start`.  `connectOk` is whether
`MessageBus(...).connect()` succeeds (a failure raises and propagates,
modelled as `.error`); `addMatchReply` is the reply to the AddMatch call.
The source sets `self._running = True` immediately after connecting,
before the AddMatch call; an error reply is logged and `start` returns
without registering the message handler and without touching `_running`. -/
def LinuxListener.start (st : LinuxState) (connectOk : Bool)
    (addMatchReply : ReplyType) : Except String LinuxState :=
  let st := { st with callbackSet := true }
  if connectOk then
    let st := { st with busSet := true, busConnected := true,
                        running := true, handlerRegistered := false }
    match addMatchReply with
    | .error => .ok st
    | .methodReturn => .ok { st with handlerRegistered := true }
  else .error "ConnectionError"

/-- `LinuxListener.stop`: clears `_running` and disconnects the bus if one
is set.  It is a total function: it never raises. -/
def LinuxListener.stop (st : LinuxState) : LinuxState :=
  { st with running := false
            busConnected := if st.busSet then false else st.busConnected }

/-- Effect of one `Notify` method-call message on the listener:
`_process_notification` writes no instance attribute, so the state is
returned unchanged together with the number of callback invocations. -/
def LinuxListener.onNotifyMessage (st : LinuxState) (args : List DBusValue)
    (now : String) : LinuxState × Nat :=
  (st, linuxCallbackCount st.callbackSet args now)

/-- A WinRT `UserNotification` as observed by
`WindowsListener._convert_notification`.  `appInfoAvailable` means the
`notification.app_info and notification.app_info.display_info` chain
evaluates truthily without raising; `displayName` is then
`display_info.display_name`.  `contentAvailable` means
`notification.notification` and its XML `content` are truthy without an
exception; `texts` is then the list of non-empty `inner_text` values of
the `text` nodes, in document order.  `constructRaises` models an
exception inside the final `NotificationPayload(...)` construction `try`
block, which yields `None` instead of a payload. -/
structure WinNotification where
  id : Int
  appInfoAvailable : Bool
  displayName : String
  contentAvailable : Bool
  texts : List String
  constructRaises : Bool
deriving Repr, DecidableEq

/-- The payload built by `_convert_notification` when the final
construction succeeds: app name with "Unknown" fallback, summary/body
from the first two extracted texts, and the platform-fixed fields
`icon = ""`, `replaces_id = 0`, `actions = []`, `timeout = -1`, with the
native id recorded under the `"windows_id"` hints key. -/
def WindowsListener.convertPayload (n : WinNotification) (now : String) :
    NotificationPayload :=
  { app_name :=
      if n.appInfoAvailable then
        (if n.displayName = "" then "Unknown" else n.displayName)
      else "Unknown"
    summary := if n.contentAvailable then n.texts.getD 0 "" else ""
    body := if n.contentAvailable then n.texts.getD 1 "" else ""
    icon := ""
    replaces_id := 0
    actions := []
    hints := [("windows_id", HintAtom.int n.id)]
    timeout := -1
    received_at := now }

/-- `WindowsListener._convert_notification`: returns `None` exactly when
the payload construction raises, otherwise the converted payload. -/
def WindowsListener.convert (n : WinNotification) (now : String) :
    Option NotificationPayload :=
  if n.constructRaises then none else some (WindowsListener.convertPayload n now)

/-- The `for notification in notifications` loop of one cycle of
`WindowsListener._poll_notifications`: each native id not yet in
`_seen_ids` is first added to the set, then its notification is
converted, and the callback is invoked when a payload was produced and
`self._callback` is set.  Returns the grown seen set and the list of
payloads delivered to the callback, in order. -/
def pollCycleLoop (cb : Bool) (now : String) :
    List WinNotification → Finset Int → Finset Int × List NotificationPayload
  | [], seen => (seen, [])
  | n :: rest, seen =>
    if n.id ∈ seen then pollCycleLoop cb now rest seen
    else
      ((pollCycleLoop cb now rest (insert n.id seen)).1,
        (match WindowsListener.convert n now with
         | some p => if cb then [p] else []
         | none => []) ++ (pollCycleLoop cb now rest (insert n.id seen)).2)

/-- One full poll cycle of `WindowsListener._poll_notifications`: the
delivery loop followed by the dedup-set cleanup, which replaces the set
by `{n.id for n in notifications}` when its size exceeds 1000. -/
def WindowsListener.pollCycle (seen : Finset Int) (cb : Bool) (now : String)
    (notifications : List WinNotification) :
    Finset Int × List NotificationPayload :=
  (if (pollCycleLoop cb now notifications seen).1.card > 1000 then
     (notifications.map (fun n => n.id)).toFinset
   else (pollCycleLoop cb now notifications seen).1,
   (pollCycleLoop cb now notifications seen).2)

/-- A sequence of poll cycles, threading the seen-id set and
concatenating the delivered payloads. -/
def runCycles (cb : Bool) (now : String) :
    Finset Int → List (List WinNotification) →
    Finset Int × List NotificationPayload
  | seen, [] => (seen, [])
  | seen, ns :: rest =>
    let first := WindowsListener.pollCycle seen cb now ns
    let later := runCycles cb now first.1 rest
    (later.1, first.2 ++ later.2)

/-- The payload delivered for a given native id carries that id under the
`"windows_id"` hints key; this predicate identifies such payloads. -/
def payloadForId (x : Int) (p : NotificationPayload) : Prop :=
  p.hints = [("windows_id", HintAtom.int x)]

instance (x : Int) (p : NotificationPayload) : Decidable (payloadForId x p) := by
  unfold payloadForId; infer_instance

/-- Along a sequence of cycles starting from a given seen set, the id `x`
is never evicted: at each cycle either the post-loop set stays within the
1000 bound (no reset happens) or `x` is among that cycle's fetched ids
(the reset keeps it). -/
def keptAlong (cb : Bool) (now : String) (x : Int) :
    Finset Int → List (List WinNotification) → Prop
  | _, [] => True
  | seen, ns :: rest =>
    ((pollCycleLoop cb now ns seen).1.card ≤ 1000 ∨ x ∈ ns.map (fun n => n.id))
    ∧ keptAlong cb now x (WindowsListener.pollCycle seen cb now ns).1 rest

instance (cb : Bool) (now : String) (x : Int) (seen : Finset Int)
    (css : List (List WinNotification)) :
    Decidable (keptAlong cb now x seen css) := by
  induction css generalizing seen with
  | nil => exact .isTrue trivial
  | cons ns rest ih => unfold keptAlong; exact @instDecidableAnd _ _ _ (ih _)

/-- Instance attributes of a `WindowsListener`: `_running`, whether
`_callback` is set, whether `_poll_task` is set, and the `_seen_ids`
dedup set. -/
structure WindowsState where
  running : Bool
  callbackSet : Bool
  pollTaskSet : Bool
  seenIds : Finset Int
deriving DecidableEq

/-- State of a freshly constructed `WindowsListener` (`__init__`). -/
def WindowsState.init : WindowsState :=
  { running := false, callbackSet := false, pollTaskSet := false
    seenIds := ∅ }

/-- The `is_running` property of the Windows listener. -/
def WindowsListener.is_running (st : WindowsState) : Bool := st.running

/-- Exceptions `WindowsListener.start` can raise: `RuntimeError` when the
winrt packages cannot be imported, `PermissionError` when notification
access is not granted. -/
inductive WinStartError where
  | importError
  | permissionDenied
deriving Repr, DecidableEq

/-- `WindowsListener.start`: import the winrt modules (failure raises
before any attribute is touched), set `_callback`, request access
(a non-allowed status raises `PermissionError`), then set `_running` and
spawn the poll task. -/
def WindowsListener.start (st : WindowsState) (importOk accessAllowed : Bool) :
    Except WinStartError WindowsState :=
  if importOk then
    let st := { st with callbackSet := true }
    if accessAllowed then
      .ok { st with running := true, pollTaskSet := true }
    else .error .permissionDenied
  else .error .importError

/-- `WindowsListener.stop`: clears `_running`, and cancels, awaits and
clears the poll task when one is set.  Total: it never raises (the
`CancelledError` is swallowed), and it is safe without a prior `start`
(the poll-task branch is simply skipped). -/
def WindowsListener.stop (st : WindowsState) : WindowsState :=
  { st with running := false, pollTaskSet := false }

/-- The fields of the application `Settings` used by the forwarder. -/
structure Settings where
  central_context_url : String
  bucket_name : String
  port : Int
deriving Repr, DecidableEq

/-- A broken-down UTC instant, the input of `strftime`. -/
structure DateTime where
  year : Nat
  month : Nat
  day : Nat
  hour : Nat
  minute : Nat
  second : Nat
  microsecond : Nat
deriving Repr, DecidableEq

/-- Decimal digit character for a value below ten. -/
def natToDigitChar (n : Nat) : Char := Char.ofNat (48 + n % 10)

/-- Decimal digits of a positive natural number, most significant first. -/
def natDigitsAux : Nat → List Char
  | 0 => []
  | n + 1 => natDigitsAux ((n + 1) / 10) ++ [natToDigitChar ((n + 1) % 10)]
decreasing_by exact Nat.div_lt_self (Nat.succ_pos n) (by decide)

/-- Decimal rendering of a natural number. -/
def natRepr (n : Nat) : String :=
  if n = 0 then "0" else String.mk (natDigitsAux n)

/-- Zero-padded decimal rendering to a given width, as produced by the
numeric `strftime` directives. -/
def padNat (w n : Nat) : String :=
  String.mk (List.replicate (w - (natRepr n).length) '0') ++ natRepr n

/-- The `strftime("%Y%m%d_%H%M%S_%f")` timestamp used for the forwarded
notification name: date, an underscore, time, an underscore, and the
six-digit microseconds. -/
def formatTimestamp (t : DateTime) : String :=
  padNat 4 t.year ++ padNat 2 t.month ++ padNat 2 t.day ++ "_" ++
  padNat 2 t.hour ++ padNat 2 t.minute ++ padNat 2 t.second ++ "_" ++
  padNat 6 t.microsecond

/-- The `safe_app_name` computation of `NotificationForwarder.forward`:
every character that is not alphanumeric is replaced by an underscore. -/
def sanitizeAppName (s : String) : String :=
  String.mk (s.data.map (fun c => if c.isAlphanum then c else '_'))

/-- The derived unique name: sanitized app name, an underscore, and the
microsecond-resolution UTC timestamp. -/
def forwardName (appName : String) (t : DateTime) : String :=
  sanitizeAppName appName ++ "_" ++ formatTimestamp t

/-- The JSON body of the POST issued by the forwarder.  The `content`
field holds the payload whose `model_dump_json()` serialization is sent;
the serialization itself is the pydantic library's canonical one and is
represented here by the payload value. -/
structure PostRequest where
  url : String
  content : NotificationPayload
  bucket : String
  name : String
  content_type : String
  description : String
deriving Repr, DecidableEq

/-- Outcome of awaiting `client.post`: a response with a status code and
text, a raised `httpx.RequestError`, or an exception of any other type
(which `forward` does not catch). -/
inductive HttpOutcome where
  | response (status : Nat) (text : String)
  | requestError (msg : String)
  | otherException (msg : String)
deriving Repr, DecidableEq

/-- What `forward` logged about the attempt. -/
inductive ForwardLog where
  | infoForwarded (name : String)
  | warnStatus (status : Nat) (text : String)
  | errRequest (msg : String)
  | nothing
deriving Repr, DecidableEq

/-- Observable result of one `forward` call: the POST requests issued in
order, whether an exception escaped to the caller, and the log entry. -/
structure ForwardResult where
  posts : List PostRequest
  raised : Bool
  log : ForwardLog
deriving Repr, DecidableEq

/-- `NotificationForwarder.forward`: build the name and the request body,
issue the POST once, then log `info` on status 201, a warning on any
other status, or an error on a raised `httpx.RequestError` — returning
normally in all three cases.  An exception of any other type escapes
after the single POST was issued. -/
def NotificationForwarder.forward (settings : Settings)
    (p : NotificationPayload) (t : DateTime) (outcome : HttpOutcome) :
    ForwardResult :=
  let timestamp := formatTimestamp t
  let safe_app_name := sanitizeAppName p.app_name
  let name := safe_app_name ++ "_" ++ timestamp
  let req : PostRequest :=
    { url := settings.central_context_url ++ "/content"
      content := p
      bucket := settings.bucket_name
      name := name
      content_type := "application/json"
      description := "Notification from " ++ p.app_name ++ ": " ++ p.summary }
  match outcome with
  | .response status text =>
      { posts := [req], raised := false
        log := if status = 201 then .infoForwarded name
               else .warnStatus status text }
  | .requestError msg =>
      { posts := [req], raised := false, log := .errRequest msg }
  | .otherException _ =>
      { posts := [req], raised := true, log := .nothing }

/-- Evaluation of `_process_notification` on a message whose first eight
body elements are a well-typed Notify argument tuple, with any trailing
extra elements: the `try` block returns the payload built from those
eight elements without raising. -/
theorem processExc_valid (app icon summary body : String) (rid tmo : Int)
    (acts : List String) (hs : List (String × HintBox))
    (rest : List DBusValue) (now : String) :
    processNotificationExc
      ([.str app, .int rid, .str icon, .str summary, .str body,
        .strList acts, .hintsDict hs, .int tmo] ++ rest) now
      = Except.ok (some
          { app_name := app, summary := summary, body := body,
            icon := icon, replaces_id := rid, actions := acts,
            hints := convertHints hs, timeout := tmo, received_at := now }) := by
  have htake :
      ([DBusValue.str app, .int rid, .str icon, .str summary, .str body,
        .strList acts, .hintsDict hs, .int tmo] ++ rest).take 8
      = [DBusValue.str app, .int rid, .str icon, .str summary, .str body,
         .strList acts, .hintsDict hs, .int tmo] :=
    List.take_left' (by simp)
  unfold processNotificationExc
  rw [if_neg (by simp), htake]
  cases acts <;> rfl

/-- The observable outcome of `_process_notification` on such a message:
the payload above, and exactly one callback invocation when the callback
is set. -/
theorem processValid (app icon summary body : String) (rid tmo : Int)
    (acts : List String) (hs : List (String × HintBox))
    (rest : List DBusValue) (now : String) :
    processNotification
      ([.str app, .int rid, .str icon, .str summary, .str body,
        .strList acts, .hintsDict hs, .int tmo] ++ rest) now
      = some { app_name := app, summary := summary, body := body,
               icon := icon, replaces_id := rid, actions := acts,
               hints := convertHints hs, timeout := tmo, received_at := now }
    ∧ linuxCallbackCount true
        ([.str app, .int rid, .str icon, .str summary, .str body,
          .strList acts, .hintsDict hs, .int tmo] ++ rest) now = 1 := by
  have h := processExc_valid app icon summary body rid tmo acts hs rest now
  have h2 : processNotification
      ([.str app, .int rid, .str icon, .str summary, .str body,
        .strList acts, .hintsDict hs, .int tmo] ++ rest) now
      = some { app_name := app, summary := summary, body := body,
               icon := icon, replaces_id := rid, actions := acts,
               hints := convertHints hs, timeout := tmo, received_at := now } := by
    unfold processNotification
    rw [h]
  refine ⟨h2, ?_⟩
  unfold linuxCallbackCount
  rw [h2]
  rfl

/-- C5: every valid 8-element Notify argument tuple yields, after a
successful `start` (which sets the callback), exactly one callback
invocation with a payload whose app_name, summary, body, icon,
replaces_id, actions and timeout equal the corresponding tuple elements;
in particular the spec's concrete example message produces exactly the
stated payload. -/
theorem linux_valid_message :
    (∀ st : LinuxState,
      (LinuxListener.start st true ReplyType.methodReturn).map
        (fun s => s.callbackSet) = Except.ok true)
    ∧ (∀ (app icon summary body : String) (rid tmo : Int)
         (acts : List String) (hs : List (String × HintBox)) (now : String),
        processNotification
          [.str app, .int rid, .str icon, .str summary, .str body,
           .strList acts, .hintsDict hs, .int tmo] now
          = some { app_name := app, summary := summary, body := body,
                   icon := icon, replaces_id := rid, actions := acts,
                   hints := convertHints hs, timeout := tmo,
                   received_at := now }
        ∧ linuxCallbackCount true
            [.str app, .int rid, .str icon, .str summary, .str body,
             .strList acts, .hintsDict hs, .int tmo] now = 1)
    ∧ processNotification
        [.str "TestApp", .int 0, .str "icon", .str "Summary", .str "Body",
         .strList [], .hintsDict [], .int (-1)] "2026-02-12T21:00:00+00:00"
        = some { app_name := "TestApp", summary := "Summary", body := "Body",
                 icon := "icon", replaces_id := 0, actions := [],
                 hints := [], timeout := -1,
                 received_at := "2026-02-12T21:00:00+00:00" } := by
  refine ⟨fun st => rfl, fun app icon summary body rid tmo acts hs now => ?_, rfl⟩
  simpa using processValid app icon summary body rid tmo acts hs [] now

/-- C7: a message whose argument list has fewer than 8 elements is
discarded by the early return: the `try` block finishes without raising
(`ok none`, so no exception even reaches the catch-all handler), no
payload is produced, the callback is invoked zero times whatever the
callback attribute is, and the listener state is unchanged so subsequent
messages are unaffected. -/
theorem linux_short_message :
    ∀ (args : List DBusValue) (now : String) (st : LinuxState),
      args.length < 8 →
      processNotificationExc args now = Except.ok none
      ∧ processNotification args now = none
      ∧ (∀ cb : Bool, linuxCallbackCount cb args now = 0)
      ∧ LinuxListener.onNotifyMessage st args now = (st, 0) := by
  intro args now st h
  have h1 : processNotificationExc args now = Except.ok none := by
    unfold processNotificationExc
    rw [if_pos h]
  have h2 : processNotification args now = none := by
    unfold processNotification
    rw [h1]
  refine ⟨h1, h2, fun cb => ?_, ?_⟩
  · unfold linuxCallbackCount
    rw [h2]
    cases cb <;> rfl
  · unfold LinuxListener.onNotifyMessage linuxCallbackCount
    rw [h2]
    cases st.callbackSet <;> rfl

/-- C7 witness: the theorem applied to the empty argument list. -/
theorem linux_short_message_witness :
    processNotification [] "now" = none
    ∧ LinuxListener.onNotifyMessage LinuxState.init [] "now"
        = (LinuxState.init, 0) :=
  ⟨(linux_short_message [] "now" LinuxState.init (by decide)).2.1,
   (linux_short_message [] "now" LinuxState.init (by decide)).2.2.2⟩

/-- C10: a message whose argument list extends a well-typed 8-element
Notify tuple with any extra elements is not discarded: the payload is
built from the first eight elements (the extras are ignored) and the
callback is invoked exactly once.  The statement quantifies over every
trailing list, covering in particular every list of more than 8
elements. -/
theorem linux_overlong_message :
    ∀ (app icon summary body : String) (rid tmo : Int)
      (acts : List String) (hs : List (String × HintBox))
      (rest : List DBusValue) (now : String),
      processNotification
        ([.str app, .int rid, .str icon, .str summary, .str body,
          .strList acts, .hintsDict hs, .int tmo] ++ rest) now
        = some { app_name := app, summary := summary, body := body,
                 icon := icon, replaces_id := rid, actions := acts,
                 hints := convertHints hs, timeout := tmo, received_at := now }
      ∧ linuxCallbackCount true
          ([.str app, .int rid, .str icon, .str summary, .str body,
            .strList acts, .hintsDict hs, .int tmo] ++ rest) now = 1 :=
  fun app icon summary body rid tmo acts hs rest now =>
    processValid app icon summary body rid tmo acts hs rest now

/-- The decimal digit character of any value is a digit. -/
theorem natToDigitChar_isDigit (n : Nat) : (natToDigitChar n).isDigit = true := by
  have h : n % 10 < 10 := Nat.mod_lt _ (by decide)
  unfold natToDigitChar
  interval_cases hk : n % 10 <;> decide

/-- Every character of the raw decimal rendering is a digit. -/
theorem natDigitsAux_digits :
    ∀ n : Nat, ∀ c ∈ natDigitsAux n, c.isDigit = true := by
  intro n
  induction n using Nat.strong_induction_on with
  | _ n ih =>
    match n with
    | 0 => intro c hc; simp [natDigitsAux] at hc
    | m + 1 =>
      intro c hc
      rw [natDigitsAux] at hc
      rcases List.mem_append.1 hc with h | h
      · exact ih ((m + 1) / 10)
          (Nat.div_lt_self (Nat.succ_pos m) (by decide)) c h
      · exact (List.mem_singleton.1 h) ▸ natToDigitChar_isDigit _

/-- Every character of the decimal rendering is a digit. -/
theorem natRepr_digits (n : Nat) :
    ∀ c ∈ (natRepr n).data, c.isDigit = true := by
  intro c hc
  unfold natRepr at hc
  by_cases h : n = 0
  · rw [if_pos h] at hc
    simp at hc
    subst hc
    decide
  · rw [if_neg h] at hc
    exact natDigitsAux_digits n c hc

/-- Every character of a zero-padded decimal rendering is a digit. -/
theorem padNat_digits (w n : Nat) :
    ∀ c ∈ (padNat w n).data, c.isDigit = true := by
  intro c hc
  unfold padNat at hc
  rw [String.data_append] at hc
  rcases List.mem_append.1 hc with h | h
  · have := List.eq_of_mem_replicate h
    subst this
    decide
  · exact natRepr_digits n c h

/-- A character property holds of an appended string when it holds of
both parts. -/
theorem append_chars {P : Char → Prop} {s t : String}
    (hs : ∀ c ∈ s.data, P c) (ht : ∀ c ∈ t.data, P c) :
    ∀ c ∈ (s ++ t).data, P c := by
  intro c hc
  rw [String.data_append] at hc
  rcases List.mem_append.1 hc with h | h
  · exact hs c h
  · exact ht c h

/-- Every character of the timestamp is a digit or an underscore. -/
theorem formatTimestamp_chars (t : DateTime) :
    ∀ c ∈ (formatTimestamp t).data, c.isDigit = true ∨ c = '_' := by
  have hu : ∀ c ∈ ("_" : String).data, c.isDigit = true ∨ c = '_' := by
    intro c hc
    right
    simpa using hc
  have hp : ∀ w n : Nat, ∀ c ∈ (padNat w n).data, c.isDigit = true ∨ c = '_' :=
    fun w n c hc => Or.inl (padNat_digits w n c hc)
  unfold formatTimestamp
  exact append_chars (append_chars (append_chars (append_chars (append_chars
    (append_chars (append_chars (append_chars (hp 4 t.year) (hp 2 t.month))
    (hp 2 t.day)) hu) (hp 2 t.hour)) (hp 2 t.minute)) (hp 2 t.second)) hu)
    (hp 6 t.microsecond)

/-- Every character of the sanitized app name is alphanumeric or an
underscore. -/
theorem sanitizeAppName_chars (s : String) :
    ∀ c ∈ (sanitizeAppName s).data, c.isAlphanum = true ∨ c = '_' := by
  intro c hc
  unfold sanitizeAppName at hc
  rcases List.mem_map.1 hc with ⟨c0, _, hc0⟩
  by_cases h : c0.isAlphanum
  · rw [if_pos h] at hc0
    exact Or.inl (hc0 ▸ h)
  · rw [if_neg h] at hc0
    exact Or.inr hc0.symm

/-- Every character of the derived forward name is alphanumeric or an
underscore. -/
theorem forwardName_chars (app : String) (t : DateTime) :
    ∀ c ∈ (forwardName app t).data, c.isAlphanum = true ∨ c = '_' := by
  have hts : ∀ c ∈ (formatTimestamp t).data, c.isAlphanum = true ∨ c = '_' := by
    intro c hc
    rcases formatTimestamp_chars t c hc with h | h
    · exact Or.inl (by simp [Char.isAlphanum, h])
    · exact Or.inr h
  have hu : ∀ c ∈ ("_" : String).data, c.isAlphanum = true ∨ c = '_' := by
    intro c hc
    right
    simpa using hc
  unfold forwardName
  exact append_chars (append_chars (sanitizeAppName_chars app) hu) hts

/-- The delivery loop only grows the seen-id set. -/
theorem pollCycleLoop_seen_subset (cb : Bool) (now : String) :
    ∀ (ns : List WinNotification) (seen : Finset Int),
      seen ⊆ (pollCycleLoop cb now ns seen).1 := by
  intro ns
  induction ns with
  | nil => intro seen; simp [pollCycleLoop]
  | cons n rest ih =>
    intro seen
    by_cases h : n.id ∈ seen
    · rw [pollCycleLoop, if_pos h]
      exact ih seen
    · rw [pollCycleLoop, if_neg h]
      exact (Finset.subset_insert _ _).trans (ih _)

/-- Membership in the loop's final seen set: the initial set plus the
fetched ids. -/
theorem pollCycleLoop_mem (cb : Bool) (now : String) :
    ∀ (ns : List WinNotification) (seen : Finset Int) (x : Int),
      x ∈ (pollCycleLoop cb now ns seen).1
        ↔ x ∈ seen ∨ x ∈ ns.map (fun n => n.id) := by
  intro ns
  induction ns with
  | nil => intro seen x; simp [pollCycleLoop]
  | cons n rest ih =>
    intro seen x
    by_cases h : n.id ∈ seen
    · rw [pollCycleLoop, if_pos h, ih]
      constructor
      · rintro (hx | hx)
        · exact Or.inl hx
        · exact Or.inr (by simp [hx])
      · rintro (hx | hx)
        · exact Or.inl hx
        · rcases List.mem_map.1 hx with ⟨m, hm, hmx⟩
          rcases List.mem_cons.1 hm with rfl | hm
          · exact Or.inl (hmx ▸ h)
          · exact Or.inr (List.mem_map.2 ⟨m, hm, hmx⟩)
    · rw [pollCycleLoop, if_neg h]
      show x ∈ (pollCycleLoop cb now rest (insert n.id seen)).1 ↔ _
      rw [ih]
      simp [Finset.mem_insert, or_assoc]
      tauto

/-- Every payload the loop delivers comes from a fetched notification
whose id was not yet seen and whose conversion succeeded. -/
theorem pollCycleLoop_outs (cb : Bool) (now : String) :
    ∀ (ns : List WinNotification) (seen : Finset Int)
      (p : NotificationPayload),
      p ∈ (pollCycleLoop cb now ns seen).2 →
      ∃ m, m ∈ ns ∧ m.id ∉ seen ∧ m.constructRaises = false
        ∧ p = WindowsListener.convertPayload m now := by
  intro ns
  induction ns with
  | nil => intro seen p hp; simp [pollCycleLoop] at hp
  | cons n rest ih =>
    intro seen p hp
    by_cases h : n.id ∈ seen
    · rw [pollCycleLoop, if_pos h] at hp
      rcases ih seen p hp with ⟨m, hm, hms, hmc, hmp⟩
      exact ⟨m, List.mem_cons_of_mem _ hm, hms, hmc, hmp⟩
    · rw [pollCycleLoop, if_neg h] at hp
      rcases List.mem_append.1 hp with hp | hp
      · unfold WindowsListener.convert at hp
        rcases hc : n.constructRaises with _ | _ <;> rw [hc] at hp <;>
          simp at hp
        exact ⟨n, List.mem_cons_self _ _, h, hc, hp.2⟩
      · rcases ih (insert n.id seen) p hp with ⟨m, hm, hms, hmc, hmp⟩
        exact ⟨m, List.mem_cons_of_mem _ hm,
               fun hx => hms (Finset.mem_insert_of_mem hx), hmc, hmp⟩

/-- A cycle whose fetched ids are all already seen delivers nothing and
leaves the seen set unchanged. -/
theorem pollCycleLoop_all_seen (cb : Bool) (now : String) :
    ∀ (ns : List WinNotification) (seen : Finset Int),
      (∀ n ∈ ns, n.id ∈ seen) →
      pollCycleLoop cb now ns seen = (seen, []) := by
  intro ns
  induction ns with
  | nil => intro seen _; rfl
  | cons n rest ih =>
    intro seen h
    rw [pollCycleLoop, if_pos (h n (List.mem_cons_self _ _))]
    exact ih seen (fun m hm => h m (List.mem_cons_of_mem _ hm))

/-- When the fetched ids are distinct and every conversion succeeds, the
loop with the callback set delivers exactly the converted payloads of the
not-yet-seen notifications, in listing order. -/
theorem pollCycleLoop_success (now : String) :
    ∀ (ns : List WinNotification) (seen : Finset Int),
      (ns.map (fun n => n.id)).Nodup →
      (∀ n ∈ ns, n.constructRaises = false) →
      (pollCycleLoop true now ns seen).2
        = (ns.filter (fun n => decide (n.id ∉ seen))).map
            (fun n => WindowsListener.convertPayload n now) := by
  intro ns
  induction ns with
  | nil => intro seen _ _; rfl
  | cons n rest ih =>
    intro seen hnd hok
    have hnd1 : n.id ∉ rest.map (fun m => m.id) :=
      (List.nodup_cons.1 (by simpa using hnd)).1
    have hnd2 : (rest.map (fun m => m.id)).Nodup :=
      (List.nodup_cons.1 (by simpa using hnd)).2
    have hok1 : n.constructRaises = false := hok n (List.mem_cons_self _ _)
    have hok2 : ∀ m ∈ rest, m.constructRaises = false :=
      fun m hm => hok m (List.mem_cons_of_mem _ hm)
    by_cases h : n.id ∈ seen
    · rw [pollCycleLoop, if_pos h, ih seen hnd2 hok2,
          List.filter_cons_of_neg (by simpa using h)]
    · rw [pollCycleLoop, if_neg h,
          List.filter_cons_of_pos (by simpa using h)]
      have hfil : rest.filter (fun m => decide (m.id ∉ insert n.id seen))
          = rest.filter (fun m => decide (m.id ∉ seen)) := by
        refine List.filter_congr (fun m hm => ?_)
        have : m.id ≠ n.id := by
          intro hx
          exact hnd1 (List.mem_map.2 ⟨m, hm, hx⟩)
        simp [Finset.mem_insert, this]
      rw [ih (insert n.id seen) hnd2 hok2, hfil]
      unfold WindowsListener.convert
      rw [hok1]
      rfl

/-- An id already in the seen set at the start of a cycle gets no payload
delivered for it in that cycle, and survives the cycle whenever the
post-loop set is within the 1000 bound or the id is among the fetched
ids. -/
theorem pollCycle_seen_no_payload (cb : Bool) (now : String) (x : Int)
    (seen : Finset Int) (ns : List WinNotification) (hx : x ∈ seen) :
    (∀ p ∈ (WindowsListener.pollCycle seen cb now ns).2, ¬ payloadForId x p)
    ∧ ((pollCycleLoop cb now ns seen).1.card ≤ 1000
        ∨ x ∈ ns.map (fun n => n.id) →
        x ∈ (WindowsListener.pollCycle seen cb now ns).1) := by
  constructor
  · intro p hp hpx
    have hp2 : p ∈ (pollCycleLoop cb now ns seen).2 := hp
    rcases pollCycleLoop_outs cb now ns seen p hp2 with ⟨m, _, hms, _, rfl⟩
    have : m.id = x := by
      simpa [WindowsListener.convertPayload, payloadForId] using hpx
    exact hms (this ▸ hx)
  · intro hcond
    unfold WindowsListener.pollCycle
    by_cases hcard : (pollCycleLoop cb now ns seen).1.card > 1000
    · rw [if_pos hcard]
      rcases hcond with hle | hmem
      · omega
      · simpa using hmem
    · rw [if_neg hcard]
      exact pollCycleLoop_seen_subset cb now ns seen hx

/-- An id in the seen set that is never evicted along a sequence of
cycles stays in the set and never has a payload delivered for it. -/
theorem runCycles_kept (cb : Bool) (now : String) (x : Int) :
    ∀ (css : List (List WinNotification)) (seen : Finset Int),
      x ∈ seen → keptAlong cb now x seen css →
      x ∈ (runCycles cb now seen css).1
      ∧ ∀ p ∈ (runCycles cb now seen css).2, ¬ payloadForId x p := by
  intro css
  induction css with
  | nil =>
    intro seen hx _
    exact ⟨hx, by simp [runCycles]⟩
  | cons ns rest ih =>
    intro seen hx hk
    rw [keptAlong] at hk
    obtain ⟨hk1, hk2⟩ := hk
    have step := pollCycle_seen_no_payload cb now x seen ns hx
    have hx1 : x ∈ (WindowsListener.pollCycle seen cb now ns).1 :=
      step.2 hk1
    have later := ih _ hx1 hk2
    refine ⟨later.1, ?_⟩
    intro p hp
    rw [runCycles] at hp
    rcases List.mem_append.1 hp with hp | hp
    · exact step.1 p hp
    · exact later.2 p hp

/-- C2 (amended): in a cycle with distinct fetched ids, all of whose
conversions succeed, the callback receives exactly the converted payload
of each not-yet-seen notification, in listing order — so it is invoked
exactly K times for K new ids — and each delivered payload carries the
native id under the "windows_id" hints key with replaces_id 0, timeout -1
and an empty icon; a cycle fetching only already-seen ids delivers
nothing. -/
theorem windows_per_cycle_delivery :
    ∀ (seen : Finset Int) (now : String) (ns : List WinNotification),
      (ns.map (fun n => n.id)).Nodup →
      (∀ n ∈ ns, n.constructRaises = false) →
      ((WindowsListener.pollCycle seen true now ns).2
          = (ns.filter (fun n => decide (n.id ∉ seen))).map
              (fun n => WindowsListener.convertPayload n now))
      ∧ ((WindowsListener.pollCycle seen true now ns).2.length
          = (ns.filter (fun n => decide (n.id ∉ seen))).length)
      ∧ (∀ p ∈ (WindowsListener.pollCycle seen true now ns).2,
          (∃ n, n ∈ ns ∧ n.id ∉ seen ∧ payloadForId n.id p)
          ∧ p.replaces_id = 0 ∧ p.timeout = -1 ∧ p.icon = "")
      ∧ (∀ ns2 : List WinNotification, (∀ n ∈ ns2, n.id ∈ seen) →
          (WindowsListener.pollCycle seen true now ns2).2 = []) := by
  intro seen now ns hnd hok
  have hmain : (WindowsListener.pollCycle seen true now ns).2
      = (ns.filter (fun n => decide (n.id ∉ seen))).map
          (fun n => WindowsListener.convertPayload n now) :=
    pollCycleLoop_success now ns seen hnd hok
  refine ⟨hmain, by rw [hmain, List.length_map], ?_, ?_⟩
  · intro p hp
    rw [hmain] at hp
    rcases List.mem_map.1 hp with ⟨n, hn, rfl⟩
    have hn2 := List.of_mem_filter hn
    refine ⟨⟨n, List.mem_of_mem_filter hn, by simpa using hn2, rfl⟩,
            rfl, rfl, rfl⟩
  · intro ns2 h2
    show (pollCycleLoop true now ns2 seen).2 = []
    rw [pollCycleLoop_all_seen true now ns2 seen h2]

/-- C2 witness: a cycle with one new, successfully converting
notification delivers exactly one payload. -/
theorem windows_per_cycle_delivery_witness :
    (WindowsListener.pollCycle ∅ true "t"
      [{ id := 5, appInfoAvailable := false, displayName := "",
         contentAvailable := false, texts := [],
         constructRaises := false }]).2.length = 1 :=
  ((windows_per_cycle_delivery ∅ "t"
      [{ id := 5, appInfoAvailable := false, displayName := "",
         contentAvailable := false, texts := [],
         constructRaises := false }]
      (by decide) (by decide)).2.1).trans (by decide)

/-- C2: the claim as stated is false on the code: when the conversion of
a new notification fails (returns None), the callback is not invoked for
it, so a cycle with K = 1 new ids can produce zero invocations. -/
theorem windows_delivery_counterexample :
    ((WindowsListener.pollCycle ∅ true "t"
        [{ id := 1, appInfoAvailable := false, displayName := "",
           contentAvailable := false, texts := [],
           constructRaises := true }]).2.length = 0)
    ∧ (([({ id := 1, appInfoAvailable := false, displayName := "",
            contentAvailable := false, texts := [],
            constructRaises := true } : WinNotification)].filter
          (fun n => decide (n.id ∉ (∅ : Finset Int)))).length = 1) := by
  decide

/-- C3: at the end of a poll cycle, if the seen set (after the loop's
additions) has at most 1000 entries it is left exactly as the loop built
it — in particular every previously seen id is retained, the set is never
reset — and if it strictly exceeds 1000 entries it is replaced by exactly
the set of native ids present in that cycle's fetched list. -/
theorem windows_evict_policy :
    ∀ (seen : Finset Int) (cb : Bool) (now : String)
      (ns : List WinNotification),
      ((pollCycleLoop cb now ns seen).1.card ≤ 1000 →
        (WindowsListener.pollCycle seen cb now ns).1
          = (pollCycleLoop cb now ns seen).1
        ∧ seen ⊆ (WindowsListener.pollCycle seen cb now ns).1)
      ∧ ((pollCycleLoop cb now ns seen).1.card > 1000 →
        ∀ x : Int, x ∈ (WindowsListener.pollCycle seen cb now ns).1
          ↔ x ∈ ns.map (fun n => n.id)) := by
  intro seen cb now ns
  constructor
  · intro hle
    have hno : ¬ (pollCycleLoop cb now ns seen).1.card > 1000 := by omega
    have heq : (WindowsListener.pollCycle seen cb now ns).1
        = (pollCycleLoop cb now ns seen).1 := by
      unfold WindowsListener.pollCycle
      rw [if_neg hno]
    exact ⟨heq, heq ▸ pollCycleLoop_seen_subset cb now ns seen⟩
  · intro hgt x
    unfold WindowsListener.pollCycle
    rw [if_pos hgt]
    simp

/-- C3 witness: the theorem applied to an empty cycle from an empty seen
set, whose post-loop set is within the bound. -/
theorem windows_evict_policy_witness :
    (WindowsListener.pollCycle ∅ true "t" []).1
      = (pollCycleLoop true "t" [] ∅).1 :=
  ((windows_evict_policy ∅ true "t" []).1 (by decide)).1

/-- C9: when the conversion of a new notification fails, its id was
nevertheless added to the seen set before conversion was attempted, so no
payload carrying that id is delivered in the current cycle, and along any
later cycles during which the id is not evicted by the over-1000 reset,
no payload carrying it is ever delivered: the notification is permanently
dropped. -/
theorem windows_convert_none_drop :
    ∀ (cb : Bool) (now : String) (seen : Finset Int) (n : WinNotification)
      (ns : List WinNotification) (css : List (List WinNotification)),
      (ns.map (fun m => m.id)).Nodup →
      n ∈ ns → n.id ∉ seen → n.constructRaises = true →
      (∀ p ∈ (WindowsListener.pollCycle seen cb now ns).2,
        ¬ payloadForId n.id p)
      ∧ n.id ∈ (WindowsListener.pollCycle seen cb now ns).1
      ∧ (keptAlong cb now n.id (WindowsListener.pollCycle seen cb now ns).1
          css →
         ∀ p ∈ (runCycles cb now
            (WindowsListener.pollCycle seen cb now ns).1 css).2,
          ¬ payloadForId n.id p) := by
  intro cb now seen n ns css hnd hn hns hraise
  have hmem : n.id ∈ (WindowsListener.pollCycle seen cb now ns).1 := by
    unfold WindowsListener.pollCycle
    by_cases hcard : (pollCycleLoop cb now ns seen).1.card > 1000
    · rw [if_pos hcard]
      exact List.mem_toFinset.2 (List.mem_map.2 ⟨n, hn, rfl⟩)
    · rw [if_neg hcard]
      exact (pollCycleLoop_mem cb now ns seen n.id).2
        (Or.inr (List.mem_map.2 ⟨n, hn, rfl⟩))
  refine ⟨?_, hmem, ?_⟩
  · intro p hp hpx
    have hp2 : p ∈ (pollCycleLoop cb now ns seen).2 := hp
    rcases pollCycleLoop_outs cb now ns seen p hp2 with ⟨m, hm, _, hmok, rfl⟩
    have hid : m.id = n.id := by
      simpa [WindowsListener.convertPayload, payloadForId] using hpx
    have : m = n := List.inj_on_of_nodup_map hnd hm hn hid
    rw [this, hraise] at hmok
    exact Bool.noConfusion hmok
  · intro hkept
    exact (runCycles_kept cb now n.id css _ hmem hkept).2

/-- C9 witness: a single-cycle run with one new notification whose
conversion fails, followed by no further cycles. -/
theorem windows_convert_none_drop_witness :
    (7 : Int) ∈ (WindowsListener.pollCycle ∅ true "t"
      [{ id := 7, appInfoAvailable := false, displayName := "",
         contentAvailable := false, texts := [],
         constructRaises := true }]).1 :=
  (windows_convert_none_drop true "t" ∅
      { id := 7, appInfoAvailable := false, displayName := "",
        contentAvailable := false, texts := [], constructRaises := true }
      [{ id := 7, appInfoAvailable := false, displayName := "",
         contentAvailable := false, texts := [], constructRaises := true }]
      [] (by decide) (by decide) (by decide) rfl).2.1

/-- C6: for every payload the name of the (single) POST issued by
`forward` equals the app name with every non-alphanumeric character
replaced by an underscore, followed by an underscore and the
microsecond-resolution UTC timestamp; every character of such a name is
alphanumeric or an underscore, and in particular for app name
"My App (v2.0)" the derived name contains no parenthesis, dot or space
character, whatever the timestamp. -/
theorem forwarder_name_derivation :
    (∀ (settings : Settings) (p : NotificationPayload) (t : DateTime)
       (outcome : HttpOutcome),
      (NotificationForwarder.forward settings p t outcome).posts.map
          (fun r => r.name)
        = [sanitizeAppName p.app_name ++ "_" ++ formatTimestamp t])
    ∧ (∀ (app : String) (t : DateTime),
        ((forwardName app t).data.all
          (fun c => c.isAlphanum || c == '_')) = true)
    ∧ (∀ t : DateTime,
        ((forwardName "My App (v2.0)" t).data.all
          (fun c => !(c == '(' || c == ')' || c == '.' || c == ' ')))
          = true) := by
  refine ⟨fun settings p t outcome => ?_, fun app t => ?_, fun t => ?_⟩
  · cases outcome <;> rfl
  · apply List.all_eq_true.2
    intro c hc
    rcases forwardName_chars app t c hc with h | h
    · simp [h]
    · simp [h]
  · apply List.all_eq_true.2
    intro c hc
    have h4 : c ≠ '(' ∧ c ≠ ')' ∧ c ≠ '.' ∧ c ≠ ' ' := by
      rcases forwardName_chars "My App (v2.0)" t c hc with h | rfl
      · refine ⟨?_, ?_, ?_, ?_⟩ <;> rintro rfl <;> revert h <;> decide
      · exact ⟨by decide, by decide, by decide, by decide⟩
    simp [h4.1, h4.2.1, h4.2.2.1, h4.2.2.2]

/-- C1: the claim says that when the bus connection succeeds but AddMatch
is answered with an error reply, `start` returns without raising and
`is_running` is false afterwards.  On the code, `self._running = True` is
executed before the AddMatch call and the error branch only logs and
returns, so `is_running` is true: the claim is false at the concrete
fresh-listener run below. -/
theorem linux_softfail_counterexample :
    LinuxListener.start LinuxState.init true ReplyType.error
      = Except.ok { running := true, callbackSet := true, busSet := true,
                    busConnected := true, handlerRegistered := false }
    ∧ ¬ ((LinuxListener.start LinuxState.init true ReplyType.error).map
          LinuxListener.is_running = Except.ok false) :=
  ⟨rfl, fun h => nomatch h⟩

/-- C1 (amended): if the bus connection succeeds but the AddMatch request
is answered with an error reply, `start` returns without raising — but
`is_running` is true afterwards (the running flag was set before the
AddMatch call and is not cleared on this path) and the message handler is
left unregistered, so no notification is ever processed. -/
theorem linux_softfail_amended :
    ∀ st : LinuxState,
      LinuxListener.start st true ReplyType.error
        = Except.ok { running := true, callbackSet := true, busSet := true,
                      busConnected := true, handlerRegistered := false } :=
  fun _ => rfl

/-- C4: for every payload and transport outcome the HTTP POST is issued
exactly once; a response with any status (201 or not) and a raised
`httpx.RequestError` both make `forward` return normally without raising,
and in no case is the request retried (the posts list always has length
one). -/
theorem forwarder_failure_containment :
    (∀ (settings : Settings) (p : NotificationPayload) (t : DateTime)
       (outcome : HttpOutcome),
      (NotificationForwarder.forward settings p t outcome).posts.length = 1)
    ∧ (∀ (settings : Settings) (p : NotificationPayload) (t : DateTime)
         (status : Nat) (text : String),
        (NotificationForwarder.forward settings p t
          (HttpOutcome.response status text)).raised = false)
    ∧ (∀ (settings : Settings) (p : NotificationPayload) (t : DateTime)
         (msg : String),
        (NotificationForwarder.forward settings p t
          (HttpOutcome.requestError msg)).raised = false) := by
  refine ⟨fun settings p t outcome => ?_, fun _ _ _ _ _ => rfl,
          fun _ _ _ _ => rfl⟩
  cases outcome <;> rfl

/-- C8: for both platform listeners, `is_running` is false on a fresh
instance, the result of `start` mapped through `is_running` is `ok true`
exactly when `start` returns successfully (and the platform-specific
error otherwise), `is_running` is false after `stop`, `stop` is a total
function so it is safe on a never-started (or failed-start) instance, and
a stopped instance is indistinguishable from a fresh one with respect to
`is_running` and the result of any future `start`. -/
theorem listener_lifecycle :
    (LinuxListener.is_running LinuxState.init = false
      ∧ WindowsListener.is_running WindowsState.init = false)
    ∧ (∀ (st : LinuxState) (c : Bool) (r : ReplyType),
        (LinuxListener.start st c r).map LinuxListener.is_running
          = if c then Except.ok true else Except.error "ConnectionError")
    ∧ (∀ (st : WindowsState) (i a : Bool),
        (WindowsListener.start st i a).map WindowsListener.is_running
          = if i then
              (if a then Except.ok true
               else Except.error WinStartError.permissionDenied)
            else Except.error WinStartError.importError)
    ∧ (∀ st : LinuxState,
        LinuxListener.is_running (LinuxListener.stop st) = false)
    ∧ (∀ st : WindowsState,
        WindowsListener.is_running (WindowsListener.stop st) = false)
    ∧ (∀ (st : LinuxState) (c : Bool) (r : ReplyType),
        (LinuxListener.start (LinuxListener.stop st) c r).map
            LinuxListener.is_running
          = (LinuxListener.start LinuxState.init c r).map
              LinuxListener.is_running)
    ∧ (∀ (st : WindowsState) (i a : Bool),
        (WindowsListener.start (WindowsListener.stop st) i a).map
            WindowsListener.is_running
          = (WindowsListener.start WindowsState.init i a).map
              WindowsListener.is_running) := by
  refine ⟨⟨rfl, rfl⟩, fun st c r => ?_, fun st i a => ?_, fun _ => rfl,
          fun _ => rfl, fun st c r => ?_, fun st i a => ?_⟩
  · cases c <;> cases r <;> rfl
  · cases i <;> cases a <;> rfl
  · cases c <;> cases r <;> rfl
  · cases i <;> cases a <;> rfl
